import Mathlib

/-!
Verification of the customer-support agent runtime
(`src/runtime/app.py`, `src/agent/memory_hooks.py`, `src/agent/tools.py`,
`src/frontend/main.py`) against its natural-language specification.

The Python code is shallowly embedded: the model backend (the
`claude_agent_sdk.query` async iterator) is represented by the sequence of
messages it yields, each message carrying a `content` attribute (a streamed
text chunk), a `result` attribute (a terminal result), neither, or raising an
exception mid-iteration.  Fallible external calls (memory store, search
backends) are represented by explicit outcome parameters, and the exceptions
the Python code catches are modelled as `Except` values that the embedded
handlers absorb exactly where the source's `try/except` blocks do.
Side effects on the memory store are recorded in an explicit effect trace.
-/

namespace CustomerSupport

/-- One message yielded by the model backend iterator in
`src/runtime/app.py`.  `content` is a message exposing a `content` attribute
(a streamed chunk), `result` one exposing a `result` attribute (terminal
result), `other` one exposing neither; `err` models the iteration raising an
exception at that point. -/
inductive Msg
  | content (s : String)
  | result (s : String)
  | err (e : String)
  | other
deriving DecidableEq, Repr

/-- A side effect on the memory store: a `retrieve_context` call with the
query text, or an attempted `create_event` (memory save) with the user and
assistant texts. -/
inductive Effect
  | retrieve (q : String)
  | save (u a : String)
deriving DecidableEq, Repr

/-- The HTTP-level response of the `/invocations` endpoint: status code,
optional `message` field (sync 200), optional `error` field (400/500), and
for streaming mode the list of SSE events actually delivered to the client
(possibly truncated when the generator raises). -/
structure HttpResponse where
  status : Nat
  message : Option String
  error : Option String
  sse : Option (List String)
deriving DecidableEq, Repr

/-- Python's `str.upper()` on the character list (ASCII case mapping, which
covers the strategy-type labels this code upper-cases). -/
def pyUpper (s : String) : String := ⟨s.data.map Char.toUpper⟩

/-- Python's `str.strip()` on the character list: drop leading and trailing
whitespace. -/
def pyStrip (s : String) : String :=
  ⟨((s.data.dropWhile Char.isWhitespace).reverse.dropWhile Char.isWhitespace).reverse⟩

/-- `p` is an initial segment of `s` (string prefix test on the character
lists). -/
def isStartOf (p s : String) : Bool := p.data.isPrefixOf s.data

/-! ### Memory retrieval (`CustomerSupportMemoryManager.retrieve_context`) -/

/-- One record returned by `client.retrieve_memories`:
either not a dict, a dict whose `content` is not a dict, or a dict carrying
`content.text` (defaulting to the empty string). -/
inductive MemRecord
  | notDict
  | contentNotDict
  | entry (text : String)
deriving DecidableEq, Repr

/-- The external memory backend's behaviour for one `retrieve_context` call:
`raises` is the exception message when any backend call inside the loop
raises, and `strategies` lists, in iteration order of `self.namespaces`,
each strategy type together with the records returned for its namespace. -/
structure RetrieveEnv where
  raises : Option String
  strategies : List (String × List MemRecord)
deriving Repr

/-- The `all_context` list built by `retrieve_context`: for each strategy in
order, each well-formed record whose stripped text is non-empty contributes
the line `[TYPE] text` where `TYPE` is the upper-cased strategy type. -/
def taggedSnippets (strategies : List (String × List MemRecord)) : List String :=
  match strategies with
  | [] => []
  | (ctype, mems) :: rest =>
      (mems.filterMap fun m =>
        match m with
        | .entry t =>
            let t2 := pyStrip t
            if t2 = "" then none else some ("[" ++ pyUpper ctype ++ "] " ++ t2)
        | _ => none) ++ taggedSnippets rest

/-- The body of `retrieve_context` inside its `try`: either the backend
raises, or the joined context text (empty when no snippets). -/
def retrieve_context_attempt (env : RetrieveEnv) : Except String String :=
  match env.raises with
  | some e => .error e
  | none =>
      let all_context := taggedSnippets env.strategies
      if all_context ≠ [] then .ok (String.intercalate "\n" all_context)
      else .ok ""

/-- `CustomerSupportMemoryManager.retrieve_context`
(src/agent/memory_hooks.py:112-147): the whole body is wrapped in
`try/except`, with a final `return ""` covering both the exception path and
the no-snippet path. -/
def retrieve_context (env : RetrieveEnv) : String :=
  match retrieve_context_attempt env with
  | .ok s => s
  | .error _ => ""

/-! ### Memory save (`CustomerSupportMemoryManager.save_interaction`) -/

/-- `CustomerSupportMemoryManager.save_interaction`
(src/agent/memory_hooks.py:149-169): attempts `create_event` only when both
texts are non-empty; an exception from `create_event` is caught and logged.
Returns the attempted save effects together with the swallowed error, which
the caller only logs. -/
def save_interaction (saveRaises : Bool) (user_query agent_response : String) :
    List Effect × Option String :=
  if user_query != "" && agent_response != "" then
    ([Effect.save user_query agent_response],
     if saveRaises then some "create_event failed" else none)
  else ([], none)

/-! ### Prompt construction (src/runtime/app.py:114-116) -/

/-- The enhanced-prompt construction inlined in `invocations`:
`f"Customer Context:\n{context}\n\n{user_input}"` when `context` is truthy,
the user input unchanged otherwise. -/
def build_enhanced_prompt (context user_text : String) : String :=
  if context ≠ "" then "Customer Context:\n" ++ context ++ "\n\n" ++ user_text
  else user_text

/-! ### Synchronous mode (`_sync_response`, src/runtime/app.py:139-158) -/

/-- The `run_agent` loop of `_sync_response`: iterates the model messages,
keeping the latest `result` attribute seen; content chunks are ignored.
An exception during iteration propagates (to the caller's `except`). -/
def runSyncAux (acc : String) : List Msg → Except String String
  | [] => .ok acc
  | .err e :: _ => .error e
  | .result s :: rest => runSyncAux s rest
  | .content _ :: rest => runSyncAux acc rest
  | .other :: rest => runSyncAux acc rest

/-- The observable outcome of the streaming generator's agent loop:
the chunks yielded so far, the accumulated `response_text`, and whether the
iteration was aborted by an exception. -/
structure StreamOutcome where
  fragments : List String
  responseText : String
  aborted : Bool
deriving DecidableEq, Repr

/-- The `run_agent` loop of `_stream_response`: a `content` chunk is both
yielded and appended to `response_text`; a `result` message replaces
`response_text`; an exception aborts the generator (no further fragments,
no save, no sentinel). -/
def runStreamAux (acc : String) : List Msg → StreamOutcome
  | [] => ⟨[], acc, false⟩
  | .content s :: rest =>
      let o := runStreamAux (acc ++ s) rest
      ⟨s :: o.fragments, o.responseText, o.aborted⟩
  | .result s :: rest => runStreamAux s rest
  | .err _ :: _ => ⟨[], acc, true⟩
  | .other :: rest => runStreamAux acc rest

/-- The SSE events the streaming client receives: one `data:` event per
chunk, and the `data: [DONE]` sentinel only when the generator was not
aborted by an exception. -/
def stream_events (o : StreamOutcome) : List String :=
  o.fragments.map (fun c => "data: " ++ c ++ "\n\n") ++
    (if o.aborted then [] else ["data: [DONE]\n\n"])

/-- `_sync_response` (src/runtime/app.py:139-158), composed with the caller's
`except` in `invocations`: an exception from `asyncio.run` becomes a 500 with
the error text; otherwise the save is attempted when a memory manager exists
and the response text is non-empty, and a 200 with the `message` field is
returned regardless of the save outcome. -/
def sync_response (hasManager saveRaises : Bool) (msgs : List Msg)
    (original_query : String) : HttpResponse × List Effect :=
  match runSyncAux "" msgs with
  | .error e => (⟨500, none, some e, none⟩, [])
  | .ok response_text =>
      let effs :=
        if hasManager && response_text != "" then
          (save_interaction saveRaises original_query response_text).1
        else []
      (⟨200, some response_text, none, none⟩, effs)

/-- `_stream_response` (src/runtime/app.py:161-200): returns a 200
`text/event-stream` response whose body is produced by the generator; the
save is attempted after the loop, before the sentinel, only when the loop
completed without an exception, a manager exists and `response_text` is
non-empty. -/
def stream_response (hasManager saveRaises : Bool) (msgs : List Msg)
    (original_query : String) : HttpResponse × List Effect :=
  let o := runStreamAux "" msgs
  let effs :=
    if !o.aborted && hasManager && o.responseText != "" then
      (save_interaction saveRaises original_query o.responseText).1
    else []
  (⟨200, none, none, some (stream_events o)⟩, effs)

/-! ### The `/invocations` endpoint (src/runtime/app.py:63-136) -/

/-- The process environment of one invocation: whether a memory id was
resolved, whether the `CustomerSupportMemoryManager` constructor succeeds
(its `get_memory_strategies` call can raise, caught in `invocations`), the
memory backend's retrieval behaviour, whether the save raises, and the model
backend as a map from the submitted prompt to the yielded message sequence. -/
structure Env where
  memoryId : Option String
  managerInitOk : Bool
  retrieveEnv : RetrieveEnv
  saveRaises : Bool
  model : String → List Msg

/-- The parsed request body: the optional `prompt` field and the `stream`
flag (`body.get("stream", False)`).  `actor_id` and `session_id` only name
the memory records and do not influence any verified behaviour; the gateway
MCP configuration block (lines 86-100) is likewise behaviour-free for these
properties (its exceptions are caught and only logged). -/
structure Request where
  prompt : Option String
  stream : Bool
deriving Repr

/-- The `invocations` handler (src/runtime/app.py:63-136): validates the
prompt, builds the memory manager and retrieves context (constructor
exceptions caught, leaving no manager), builds the enhanced prompt, and
dispatches to the streaming or synchronous handler.  Returns the HTTP
response together with the trace of memory effects. -/
def invocations (env : Env) (req : Request) : HttpResponse × List Effect :=
  let user_input := req.prompt.getD ""
  if user_input = "" then
    (⟨400, none, some "No prompt provided", none⟩, [])
  else
    let managed : Bool × String × List Effect :=
      match env.memoryId with
      | none => (false, "", [])
      | some _ =>
          if env.managerInitOk then
            (true, retrieve_context env.retrieveEnv, [Effect.retrieve user_input])
          else (false, "", [])
    let enhanced_prompt := build_enhanced_prompt managed.2.1 user_input
    let msgs := env.model enhanced_prompt
    let out :=
      if req.stream then stream_response managed.1 env.saveRaises msgs user_input
      else sync_response managed.1 env.saveRaises msgs user_input
    (out.1, managed.2.2 ++ out.2)

/-! ### Observables used in the statements -/

/-- The texts of the `content` messages of a model run, in arrival order. -/
def contentTexts : List Msg → List String
  | [] => []
  | .content s :: rest => s :: contentTexts rest
  | _ :: rest => contentTexts rest

/-- The text of the last `result` message, starting from `acc` when there is
none. -/
def lastResultText (acc : String) : List Msg → String
  | [] => acc
  | .result s :: rest => lastResultText s rest
  | _ :: rest => lastResultText acc rest

/-- Whether a model run raises no exception. -/
def noErr : List Msg → Bool
  | [] => true
  | .err _ :: _ => false
  | _ :: rest => noErr rest

/-- Number of save effects in a trace. -/
def saveCount (effs : List Effect) : Nat :=
  (effs.filter fun e => match e with | .save _ _ => true | _ => false).length

/-- A 200 response carrying a message or a fragment stream and no error. -/
def okResponse (r : HttpResponse) : Prop :=
  r.status = 200 ∧ (r.message.isSome ∨ r.sse.isSome) ∧ r.error = none

/-- A 4xx/5xx response carrying an error field and no message or stream. -/
def errResponse (r : HttpResponse) : Prop :=
  400 ≤ r.status ∧ r.error.isSome ∧ r.message = none ∧ r.sse = none

/-! ### Tool handlers (src/agent/tools.py) -/

/-- One block of a tool result, e.g. `{"type": "text", "text": ...}`. -/
structure ContentBlock where
  type : String
  text : String
deriving DecidableEq, Repr

/-- The value a tool handler returns: `{"content": [...]}`. -/
structure ToolResult where
  content : List ContentBlock
deriving DecidableEq, Repr

/-- A single-text-block tool result, the shape every handler returns. -/
def mkText (t : String) : ToolResult := ⟨[⟨"text", t⟩]⟩

/-- Outcome of the `DDGS().text` call inside `web_search`: a successful call
returning the serialized results (`none` when the result list is falsy), or
one of the three caught exception kinds. -/
inductive DDGSOutcome
  | ok (resultsJson : Option String)
  | rateLimited
  | ddgsError (msg : String)
  | otherError (msg : String)
deriving DecidableEq, Repr

/-- `web_search` (src/agent/tools.py:169-183): the backend call is wrapped in
`try/except`; every branch produces a single textual content block. -/
def web_search (_keywords : String) (backend : DDGSOutcome) : ToolResult :=
  let text :=
    match backend with
    | .ok (some j) => j
    | .ok none => "No results found."
    | .rateLimited => "Rate limit reached. Please try again later."
    | .ddgsError e => "Search error: " ++ e
    | .otherError e => "Search error: " ++ e
  mkText text

/-- Backend behaviour for one `get_technical_support` call: `raises` is the
exception text when any of the SSM/STS/Bedrock calls raises, and `results`
the `retrievalResults` as (content text, score) pairs. -/
structure KbEnv where
  raises : Option String
  results : List (String × Rat)
deriving Repr

/-- The result filter of `get_technical_support`: keep contents that are
non-empty and score at least 0.4. -/
def kbFilter (results : List (String × Rat)) : List String :=
  results.filterMap fun r =>
    if r.1 ≠ "" ∧ (0.4 : Rat) ≤ r.2 then some r.1 else none

/-- `get_technical_support` (src/agent/tools.py:200-242): the whole body is
wrapped in `try/except`; an exception yields the "Unable to access" text,
an empty filtered result list the "No relevant technical documentation"
text, and otherwise the results joined by the separator. -/
def get_technical_support (_issue_description : String) (env : KbEnv) : ToolResult :=
  match env.raises with
  | some e =>
      mkText ("Unable to access technical support documentation. Error: " ++ e)
  | none =>
      let results := kbFilter env.results
      if results ≠ [] then mkText (String.intercalate "\n\n---\n\n" results)
      else
        mkText ("No relevant technical documentation found for the described issue. "
          ++ "Please contact our technical support team directly.")

/-! ### Frontend context building (src/frontend/main.py:44-58) -/

/-- One chat message of the Streamlit session history. -/
structure ChatMsg where
  role : String
  content : String
deriving DecidableEq, Repr

/-- The frontend's default context window. -/
def CONTEXT_WINDOW : Nat := 10

/-- Python's `l[-k:]`: the last `k` elements, except that `l[-0:]` is the
whole list. -/
def pyLastSlice (k : Nat) (l : List ChatMsg) : List ChatMsg :=
  if k = 0 then l else l.drop (l.length - k)

/-- The rendering loop of `build_context`: `"User: "` or `"Assistant: "`
followed by the content and a newline, concatenated over the history. -/
def renderHistory (history : List ChatMsg) : String :=
  history.foldl
    (fun acc m =>
      acc ++ (if m.role = "user" then "User" else "Assistant") ++ ": " ++ m.content ++ "\n")
    ""

/-- `build_context` (src/frontend/main.py:44-58): slices the last
`context_window * 2` messages when the history is longer than that, then
renders each message. -/
def build_context (messages : List ChatMsg) (context_window : Nat) : String :=
  let history :=
    if messages.length > context_window * 2 then
      pyLastSlice (context_window * 2) messages
    else messages
  renderHistory history

/-! ### The agent tool-calling loop (spec §4.4) -/

/-- The outcome of one model round-trip, per the spec's AgentInvoker state
machine: plain text, tool-call requests, or a terminal result. -/
inductive RoundOutcome
  | text (s : String)
  | toolCalls (n : Nat)
  | terminal (s : String)
deriving DecidableEq, Repr

/-- The turn budget the runtime configures:
`ClaudeAgentOptions(..., max_turns=10)` in src/runtime/app.py:126. -/
def max_turns : Nat := 10

/-- Modelled from the spec: the AgentInvoker tool-calling loop lives in the
external `claude_agent_sdk` package, not in this repository; the repository
only configures it with `max_turns=10`.  Per spec §4.4, each round-trip
yields text, tool-call requests, or a terminal result; on non-terminal
outcomes the loop feeds tool results back and re-enters a model call until a
terminal result arrives or the turn budget is exhausted (a hard stop).
`agentLoopTrace oracle budget turn` returns the 1-based turn numbers of the
round-trips performed, the oracle giving each round-trip's outcome. -/
def agentLoopTrace (oracle : Nat → RoundOutcome) : Nat → Nat → List Nat
  | 0, _ => []
  | budget + 1, turn =>
      match oracle turn with
      | .terminal _ => [turn + 1]
      | _ => (turn + 1) :: agentLoopTrace oracle budget (turn + 1)

/-! ## Helper lemmas -/

theorem runSyncAux_lastResult :
    ∀ (msgs : List Msg) (acc : String), noErr msgs = true →
      runSyncAux acc msgs = .ok (lastResultText acc msgs) := by
  intro msgs
  induction msgs with
  | nil => intro acc _; rfl
  | cons m rest ih =>
      intro acc h
      cases m with
      | content s => simpa [runSyncAux, lastResultText] using ih acc (by simpa [noErr] using h)
      | result s => simpa [runSyncAux, lastResultText] using ih s (by simpa [noErr] using h)
      | err e => simp [noErr] at h
      | other => simpa [runSyncAux, lastResultText] using ih acc (by simpa [noErr] using h)

theorem runStreamAux_fragments :
    ∀ (msgs : List Msg) (acc : String), noErr msgs = true →
      (runStreamAux acc msgs).fragments = contentTexts msgs := by
  intro msgs
  induction msgs with
  | nil => intro acc _; rfl
  | cons m rest ih =>
      intro acc h
      cases m with
      | content s =>
          simpa [runStreamAux, contentTexts] using ih (acc ++ s) (by simpa [noErr] using h)
      | result s => simpa [runStreamAux, contentTexts] using ih s (by simpa [noErr] using h)
      | err e => simp [noErr] at h
      | other => simpa [runStreamAux, contentTexts] using ih acc (by simpa [noErr] using h)

theorem runStreamAux_append_result :
    ∀ (ms : List Msg) (acc r : String), noErr ms = true →
      runStreamAux acc (ms ++ [Msg.result r]) = ⟨contentTexts ms, r, false⟩ := by
  intro ms
  induction ms with
  | nil => intro acc r _; rfl
  | cons m rest ih =>
      intro acc r h
      cases m with
      | content s =>
          simp only [List.cons_append, runStreamAux, contentTexts, List.append_eq]
          rw [ih (acc ++ s) r (by simpa [noErr] using h)]
      | result s =>
          simp only [List.cons_append, runStreamAux, contentTexts, List.append_eq]
          exact ih s r (by simpa [noErr] using h)
      | err e => simp [noErr] at h
      | other =>
          simp only [List.cons_append, runStreamAux, contentTexts, List.append_eq]
          exact ih acc r (by simpa [noErr] using h)

theorem save_interaction_fst (b b' : Bool) (u a : String) :
    (save_interaction b u a).1 = (save_interaction b' u a).1 := by
  unfold save_interaction
  by_cases h : (u != "" && a != "") = true <;> simp [h]

theorem save_interaction_shape (b : Bool) (u a : String) :
    (save_interaction b u a).1 = [] ∨
      ((save_interaction b u a).1 = [Effect.save u a] ∧ u ≠ "" ∧ a ≠ "") := by
  unfold save_interaction
  by_cases h : (u != "" && a != "") = true
  · right
    refine ⟨by simp [h], ?_, ?_⟩ <;>
      simp only [Bool.and_eq_true, bne_iff_ne, ne_eq] at h
    · exact h.1
    · exact h.2
  · left; simp [h]

theorem sync_response_saveRaises (b b' : Bool) :
    ∀ (hm : Bool) (msgs : List Msg) (q : String),
      sync_response hm b msgs q = sync_response hm b' msgs q := by
  intro hm msgs q
  unfold sync_response
  cases runSyncAux "" msgs with
  | error e => rfl
  | ok t => simp [save_interaction_fst b b']

theorem stream_response_saveRaises (b b' : Bool) :
    ∀ (hm : Bool) (msgs : List Msg) (q : String),
      stream_response hm b msgs q = stream_response hm b' msgs q := by
  intro hm msgs q
  unfold stream_response
  simp [save_interaction_fst b b']

theorem invocations_saveRaises_irrel (env : Env) (req : Request) (b b' : Bool) :
    invocations { env with saveRaises := b } req =
      invocations { env with saveRaises := b' } req := by
  unfold invocations
  simp only [sync_response_saveRaises b b', stream_response_saveRaises b b']

theorem stream_response_fst (hm b : Bool) (msgs : List Msg) (q : String) :
    (stream_response hm b msgs q).1 =
      ⟨200, none, none, some (stream_events (runStreamAux "" msgs))⟩ := rfl

theorem sync_response_fst_cases (hm b : Bool) (msgs : List Msg) (q : String) :
    (∃ t, runSyncAux "" msgs = .ok t ∧
        (sync_response hm b msgs q).1 = ⟨200, some t, none, none⟩) ∨
    (∃ e, runSyncAux "" msgs = .error e ∧
        (sync_response hm b msgs q).1 = ⟨500, none, some e, none⟩) := by
  cases h : runSyncAux "" msgs with
  | ok t => exact .inl ⟨t, rfl, by simp [sync_response, h]⟩
  | error e => exact .inr ⟨e, rfl, by simp [sync_response, h]⟩

theorem sync_response_snd_shape (hm b : Bool) (msgs : List Msg) (q : String) :
    (sync_response hm b msgs q).2 = [] ∨
      ∃ u a, u ≠ "" ∧ a ≠ "" ∧ (sync_response hm b msgs q).2 = [Effect.save u a] := by
  unfold sync_response
  cases h : runSyncAux "" msgs with
  | error e => left; rfl
  | ok t =>
      by_cases hc : (hm && t != "") = true
      · rcases save_interaction_shape b q t with h1 | ⟨h1, h2, h3⟩
        · left; simp [hc, h1]
        · right; exact ⟨q, t, h2, h3, by simp [hc, h1]⟩
      · left; simp [hc]

theorem stream_response_snd_shape (hm b : Bool) (msgs : List Msg) (q : String) :
    (stream_response hm b msgs q).2 = [] ∨
      ∃ u a, u ≠ "" ∧ a ≠ "" ∧ (stream_response hm b msgs q).2 = [Effect.save u a] := by
  unfold stream_response
  by_cases hc : (!(runStreamAux "" msgs).aborted && hm &&
      (runStreamAux "" msgs).responseText != "") = true
  · rcases save_interaction_shape b q (runStreamAux "" msgs).responseText with h1 | ⟨h1, h2, h3⟩
    · left; simp [hc, h1]
    · right; exact ⟨q, (runStreamAux "" msgs).responseText, h2, h3, by simp [hc, h1]⟩
  · left; simp [hc]

theorem sync_response_snd_noManager (b : Bool) (msgs : List Msg) (q : String) :
    (sync_response false b msgs q).2 = [] := by
  unfold sync_response
  cases runSyncAux "" msgs <;> simp

theorem stream_response_snd_noManager (b : Bool) (msgs : List Msg) (q : String) :
    (stream_response false b msgs q).2 = [] := by
  unfold stream_response
  simp

theorem invocations_snd_shape (env : Env) (req : Request) :
    (invocations env req).2 = [] ∨
      (∃ q, (invocations env req).2 = [Effect.retrieve q]) ∨
      (∃ q u a, u ≠ "" ∧ a ≠ "" ∧
        (invocations env req).2 = [Effect.retrieve q, Effect.save u a]) := by
  unfold invocations
  by_cases hp : req.prompt.getD "" = ""
  · left; simp [hp]
  · rw [if_neg hp]
    cases hmem : env.memoryId with
    | none =>
        by_cases hs : req.stream
        · left; simp [hs, stream_response_snd_noManager]
        · left; simp [hs, sync_response_snd_noManager]
    | some mid =>
        cases hinit : env.managerInitOk with
        | false =>
            by_cases hs : req.stream
            · left; simp [hs, stream_response_snd_noManager]
            · left; simp [hs, sync_response_snd_noManager]
        | true =>
            by_cases hs : req.stream
            · rcases stream_response_snd_shape true env.saveRaises
                  (env.model (build_enhanced_prompt (retrieve_context env.retrieveEnv)
                    (req.prompt.getD ""))) (req.prompt.getD "")
                with h | ⟨u, a, hu, ha, h⟩
              · right; left; exact ⟨req.prompt.getD "", by simp [hs, h]⟩
              · right; right; exact ⟨req.prompt.getD "", u, a, hu, ha, by simp [hs, h]⟩
            · rcases sync_response_snd_shape true env.saveRaises
                  (env.model (build_enhanced_prompt (retrieve_context env.retrieveEnv)
                    (req.prompt.getD ""))) (req.prompt.getD "")
                with h | ⟨u, a, hu, ha, h⟩
              · right; left; exact ⟨req.prompt.getD "", by simp [hs, h]⟩
              · right; right; exact ⟨req.prompt.getD "", u, a, hu, ha, by simp [hs, h]⟩

/-! ## Claim theorems -/

/-- Claim C1, counterexample: against the model event sequence
`[content "a", result "b"]` and the same inputs, the streaming handler
yields exactly the fragment `"a"` (and the `[DONE]` sentinel) while the
synchronous handler returns the final text `"b"`; the concatenation of the
fragments neither equals the sync result nor is a prefix of it, although no
turn-budget truncation is involved (the sequence has a terminal result). -/
theorem stream_concat_matches_sync_cex :
    sync_response false false [Msg.content "a", Msg.result "b"] "q" =
      (⟨200, some "b", none, none⟩, []) ∧
    stream_response false false [Msg.content "a", Msg.result "b"] "q" =
      (⟨200, none, none, some ["data: a\n\n", "data: [DONE]\n\n"]⟩, []) ∧
    String.join (runStreamAux "" [Msg.content "a", Msg.result "b"]).fragments = "a" ∧
    "a" ≠ "b" ∧
    isStartOf "a" "b" = false := by
  exact ⟨rfl, rfl, rfl, by decide, rfl⟩

/-- Claim C1, amended: the synchronous handler returns the text of the last
terminal-result event (empty when none), and the streaming handler yields
exactly the content chunks in arrival order; hence whenever the terminal
result's text extends the concatenation of the content chunks — as the model
backend produces, but which the handlers themselves do not enforce — the
concatenation of all streamed fragments is a (possibly equal) prefix of the
synchronous result. -/
theorem stream_concat_matches_sync (msgs : List Msg) (h : noErr msgs = true)
    (hext : isStartOf (String.join (contentTexts msgs)) (lastResultText "" msgs) = true) :
    runSyncAux "" msgs = .ok (lastResultText "" msgs) ∧
    (runStreamAux "" msgs).fragments = contentTexts msgs ∧
    isStartOf (String.join (runStreamAux "" msgs).fragments)
      (lastResultText "" msgs) = true := by
  refine ⟨runSyncAux_lastResult msgs "" h, runStreamAux_fragments msgs "" h, ?_⟩
  rw [runStreamAux_fragments msgs "" h]
  exact hext

theorem stream_concat_matches_sync_witness :
    runSyncAux "" [Msg.content "ab", Msg.content "c", Msg.result "abcd"] = .ok "abcd" ∧
    (runStreamAux "" [Msg.content "ab", Msg.content "c", Msg.result "abcd"]).fragments =
      ["ab", "c"] ∧
    isStartOf
      (String.join (runStreamAux "" [Msg.content "ab", Msg.content "c",
        Msg.result "abcd"]).fragments) "abcd" = true := by
  have h := stream_concat_matches_sync
    [Msg.content "ab", Msg.content "c", Msg.result "abcd"] rfl rfl
  exact ⟨h.1, h.2.1, h.2.2⟩

/-- Claim C2: a request whose prompt is missing or empty gets a 400 response
with an error field, and the memory-effect trace is empty — neither
`retrieve_context` nor `save_interaction` is reached. -/
theorem empty_prompt_400_no_effects (env : Env) (req : Request)
    (h : req.prompt.getD "" = "") :
    (invocations env req).1.status = 400 ∧
    (invocations env req).1.error = some "No prompt provided" ∧
    (invocations env req).2 = [] := by
  refine ⟨?_, ?_, ?_⟩ <;> simp [invocations, h]

theorem empty_prompt_400_no_effects_witness :
    (invocations ⟨none, false, ⟨none, []⟩, false, fun _ => []⟩ ⟨none, false⟩).1.status = 400 ∧
    (invocations ⟨none, false, ⟨none, []⟩, false, fun _ => []⟩ ⟨none, false⟩).1.error =
      some "No prompt provided" ∧
    (invocations ⟨none, false, ⟨none, []⟩, false, fun _ => []⟩ ⟨none, false⟩).2 = [] :=
  empty_prompt_400_no_effects ⟨none, false, ⟨none, []⟩, false, fun _ => []⟩ ⟨none, false⟩ rfl

/-- Claim C3: for every non-empty prompt, the handler produces exactly one of
a 200 carrying a message or a fragment stream (and no error field), or a
4xx/5xx carrying an error field (and no message or stream) — for every model
event sequence, including ones with no terminal result and ones raising
during streaming. -/
theorem response_dichotomy (env : Env) (req : Request)
    (h : req.prompt.getD "" ≠ "") :
    (okResponse (invocations env req).1 ∧ ¬ errResponse (invocations env req).1) ∨
    (errResponse (invocations env req).1 ∧ ¬ okResponse (invocations env req).1) := by
  have hfst : ∃ hm msgs, (invocations env req).1 =
      (if req.stream then stream_response hm env.saveRaises msgs (req.prompt.getD "")
       else sync_response hm env.saveRaises msgs (req.prompt.getD "")).1 := by
    unfold invocations
    rw [if_neg h]
    exact ⟨_, _, rfl⟩
  rcases hfst with ⟨hm, msgs, hfst⟩
  have hcases :
      (∃ ev, (invocations env req).1 = ⟨200, none, none, some ev⟩) ∨
      (∃ t, (invocations env req).1 = ⟨200, some t, none, none⟩) ∨
      (∃ e, (invocations env req).1 = ⟨500, none, some e, none⟩) := by
    by_cases hs : req.stream
    · rw [hfst, if_pos hs, stream_response_fst]
      exact .inl ⟨_, rfl⟩
    · rw [hfst, if_neg hs]
      rcases sync_response_fst_cases hm env.saveRaises msgs (req.prompt.getD "")
        with ⟨t, _, h2⟩ | ⟨e, _, h2⟩
      · exact .inr (.inl ⟨t, h2⟩)
      · exact .inr (.inr ⟨e, h2⟩)
  rcases hcases with ⟨ev, he⟩ | ⟨t, he⟩ | ⟨e, he⟩ <;> rw [he]
  · exact .inl (by simp [okResponse, errResponse])
  · exact .inl (by simp [okResponse, errResponse])
  · exact .inr (by simp [okResponse, errResponse])

theorem response_dichotomy_witness :
    (okResponse (invocations ⟨none, false, ⟨none, []⟩, false, fun _ => [Msg.result "hi"]⟩
        ⟨some "hello", false⟩).1 ∧
      ¬ errResponse (invocations ⟨none, false, ⟨none, []⟩, false, fun _ => [Msg.result "hi"]⟩
        ⟨some "hello", false⟩).1) ∨
    (errResponse (invocations ⟨none, false, ⟨none, []⟩, false, fun _ => [Msg.result "hi"]⟩
        ⟨some "hello", false⟩).1 ∧
      ¬ okResponse (invocations ⟨none, false, ⟨none, []⟩, false, fun _ => [Msg.result "hi"]⟩
        ⟨some "hello", false⟩).1) :=
  response_dichotomy ⟨none, false, ⟨none, []⟩, false, fun _ => [Msg.result "hi"]⟩
    ⟨some "hello", false⟩ (by decide)

/-- Claim C4: the memory save is attempted at most once per invocation, only
with a non-empty assistant text, and an internally raising save leaves the
whole invocation outcome — the returned message, the emitted fragments and
sentinel, and the effect trace — unchanged. -/
theorem save_attempted_once (env : Env) (req : Request) (b₁ b₂ : Bool) :
    saveCount (invocations env req).2 ≤ 1 ∧
    (∀ u a, Effect.save u a ∈ (invocations env req).2 → a ≠ "") ∧
    invocations { env with saveRaises := b₁ } req =
      invocations { env with saveRaises := b₂ } req := by
  refine ⟨?_, ?_, invocations_saveRaises_irrel env req b₁ b₂⟩
  · rcases invocations_snd_shape env req with h | ⟨q, h⟩ | ⟨q, u, a, hu, ha, h⟩ <;>
      simp [h, saveCount]
  · intro u a hmem
    rcases invocations_snd_shape env req with h | ⟨q, h⟩ | ⟨q, u', a', hu, ha, h⟩ <;>
      rw [h] at hmem <;> simp at hmem
    rcases hmem with ⟨_, rfl⟩
    exact ha

theorem save_attempted_once_witness :
    Effect.save "q" "hi" ∈
      (invocations ⟨some "m", true, ⟨none, []⟩, false, fun _ => [Msg.result "hi"]⟩
        ⟨some "q", false⟩).2 ∧
    "hi" ≠ "" :=
  ⟨by decide,
   (save_attempted_once ⟨some "m", true, ⟨none, []⟩, false, fun _ => [Msg.result "hi"]⟩
      ⟨some "q", false⟩ true false).2.1 "q" "hi" (by decide)⟩

/-- Claim C5: `retrieve_context` never raises — an exception anywhere in the
retrieval loop, or an empty snippet list, yields the empty string, and
otherwise the result is the newline-join of the snippets, each tagged with
its upper-cased strategy label. -/
theorem retrieve_context_never_raises (env : RetrieveEnv) :
    (∀ e, env.raises = some e → retrieve_context env = "") ∧
    (taggedSnippets env.strategies = [] → retrieve_context env = "") ∧
    (env.raises = none → taggedSnippets env.strategies ≠ [] →
      retrieve_context env = String.intercalate "\n" (taggedSnippets env.strategies)) ∧
    (∀ e, retrieve_context_attempt env = .error e → retrieve_context env = "") := by
  refine ⟨?_, ?_, ?_, ?_⟩
  · intro e he; simp [retrieve_context, retrieve_context_attempt, he]
  · intro hts
    cases hr : env.raises with
    | none => simp [retrieve_context, retrieve_context_attempt, hr, hts]
    | some e => simp [retrieve_context, retrieve_context_attempt, hr]
  · intro hr hts
    simp [retrieve_context, retrieve_context_attempt, hr, hts]
  · intro e he; simp [retrieve_context, he]

theorem retrieve_context_never_raises_witness :
    retrieve_context ⟨some "backend down", [("semantic", [.entry "fact"])]⟩ = "" ∧
    retrieve_context ⟨none, [("semantic", [.notDict, .entry " fact "]),
      ("userPreference", [.entry "likes blue"])]⟩ =
      "[SEMANTIC] fact\n[USERPREFERENCE] likes blue" := by
  constructor
  · exact (retrieve_context_never_raises
      ⟨some "backend down", [("semantic", [.entry "fact"])]⟩).1 "backend down" rfl
  · rw [(retrieve_context_never_raises ⟨none, [("semantic", [.notDict, .entry " fact "]),
      ("userPreference", [.entry "likes blue"])]⟩).2.2.1 rfl (by decide)]
    rfl

/-- Claim C6: prompt enhancement is a pure string transform — the user text
unchanged when the retrieved context is empty, and otherwise the labelled
context block, a blank line, and the user text; in particular on the two
concrete inputs of the spec. -/
theorem build_enhanced_prompt_spec :
    (∀ ctx txt, ctx = "" → build_enhanced_prompt ctx txt = txt) ∧
    (∀ ctx txt, ctx ≠ "" →
      build_enhanced_prompt ctx txt = "Customer Context:\n" ++ ctx ++ "\n\n" ++ txt) ∧
    build_enhanced_prompt "" "hello" = "hello" ∧
    build_enhanced_prompt "ctx" "hello" = "Customer Context:\nctx\n\nhello" := by
  refine ⟨?_, ?_, rfl, rfl⟩
  · intro ctx txt hc; simp [build_enhanced_prompt, hc]
  · intro ctx txt hc; simp [build_enhanced_prompt, hc]

theorem build_enhanced_prompt_spec_witness :
    build_enhanced_prompt "" "x" = "x" ∧
    build_enhanced_prompt "c" "x" = "Customer Context:\nc\n\nx" :=
  ⟨build_enhanced_prompt_spec.1 "" "x" rfl,
   build_enhanced_prompt_spec.2.1 "c" "x" (by decide)⟩

theorem agentLoopTrace_mem_gt (oracle : Nat → RoundOutcome) :
    ∀ budget turn x, x ∈ agentLoopTrace oracle budget turn → turn < x := by
  intro budget
  induction budget with
  | zero => intro t x hx; simp [agentLoopTrace] at hx
  | succ b ih =>
      intro t x hx
      unfold agentLoopTrace at hx
      cases ho : oracle t with
      | terminal s =>
          rw [ho] at hx
          simp at hx
          omega
      | text s =>
          rw [ho] at hx
          simp only [List.mem_cons] at hx
          rcases hx with rfl | hx
          · omega
          · exact Nat.lt_of_succ_lt (ih (t + 1) x hx)
      | toolCalls n =>
          rw [ho] at hx
          simp only [List.mem_cons] at hx
          rcases hx with rfl | hx
          · omega
          · exact Nat.lt_of_succ_lt (ih (t + 1) x hx)

theorem agentLoopTrace_chain (oracle : Nat → RoundOutcome) :
    ∀ budget turn, List.Chain' (· < ·) (agentLoopTrace oracle budget turn) := by
  intro budget
  induction budget with
  | zero => intro t; simp [agentLoopTrace]
  | succ b ih =>
      intro t
      unfold agentLoopTrace
      cases ho : oracle t with
      | terminal s => simp
      | text s =>
          refine List.chain'_cons'.mpr ⟨?_, ih (t + 1)⟩
          intro y hy
          exact agentLoopTrace_mem_gt oracle b (t + 1) y (List.mem_of_mem_head? hy)
      | toolCalls n =>
          refine List.chain'_cons'.mpr ⟨?_, ih (t + 1)⟩
          intro y hy
          exact agentLoopTrace_mem_gt oracle b (t + 1) y (List.mem_of_mem_head? hy)

theorem agentLoopTrace_length (oracle : Nat → RoundOutcome) :
    ∀ budget turn, (agentLoopTrace oracle budget turn).length ≤ budget := by
  intro budget
  induction budget with
  | zero => intro t; simp [agentLoopTrace]
  | succ b ih =>
      intro t
      unfold agentLoopTrace
      cases oracle t with
      | terminal s => simp
      | text s => simpa using ih (t + 1)
      | toolCalls n => simpa using ih (t + 1)

/-- Claim C7: for every oracle of model round-trip outcomes, the agent loop
performs at most `budget` round-trips — in particular at most the
`max_turns = 10` configured in `src/runtime/app.py` — terminating even when
every round requests more tool calls, and the 1-based turn numbers of the
performed round-trips are strictly increasing. -/
theorem agent_loop_turn_budget (oracle : Nat → RoundOutcome) :
    (∀ budget turn, (agentLoopTrace oracle budget turn).length ≤ budget) ∧
    (∀ budget turn, List.Chain' (· < ·) (agentLoopTrace oracle budget turn)) ∧
    (agentLoopTrace oracle max_turns 0).length ≤ 10 ∧
    max_turns = 10 :=
  ⟨agentLoopTrace_length oracle, agentLoopTrace_chain oracle,
   agentLoopTrace_length oracle max_turns 0, rfl⟩

/-- Claim C8: for every argument set and backend behaviour, the fallible tool
handlers return a single textual content block — an internal failure (rate
limit, search exception, unreachable knowledge base) surfaces as a text
describing the failure, never as a propagating exception. -/
theorem tool_failures_contained (kw issue : String) (ws : DDGSOutcome) (kb : KbEnv) :
    (∃ t, web_search kw ws = mkText t) ∧
    (web_search kw .rateLimited = mkText "Rate limit reached. Please try again later.") ∧
    (∀ e, web_search kw (.ddgsError e) = mkText ("Search error: " ++ e)) ∧
    (∀ e, web_search kw (.otherError e) = mkText ("Search error: " ++ e)) ∧
    (∀ e, kb.raises = some e →
      get_technical_support issue kb =
        mkText ("Unable to access technical support documentation. Error: " ++ e)) ∧
    (∃ t, get_technical_support issue kb = mkText t) := by
  refine ⟨⟨_, rfl⟩, rfl, fun e => rfl, fun e => rfl, ?_, ?_⟩
  · intro e he
    simp [get_technical_support, he]
  · unfold get_technical_support
    cases kb.raises with
    | some e => exact ⟨_, rfl⟩
    | none =>
        by_cases hr : kbFilter kb.results ≠ [] <;> simp [hr]

theorem tool_failures_contained_witness :
    get_technical_support "screen flickers" ⟨some "kb unreachable", []⟩ =
      mkText ("Unable to access technical support documentation. Error: " ++
        "kb unreachable") :=
  (tool_failures_contained "k" "screen flickers" .rateLimited
    ⟨some "kb unreachable", []⟩).2.2.2.2.1 "kb unreachable" rfl

/-- Claim C9, counterexample: with context window `N = 0` and a one-message
history, Python's `messages[-0:]` slice is the whole list, so `build_context`
renders that message even though the last `2 * 0` messages render to the
empty string — the claim fails for `N = 0`. -/
theorem build_context_window_cex :
    build_context [⟨"user", "a"⟩] 0 = "User: a\n" ∧
    renderHistory (List.drop (([(⟨"user", "a"⟩ : ChatMsg)]).length - 2 * 0)
      [(⟨"user", "a"⟩ : ChatMsg)]) = "" ∧
    "User: a\n" ≠ "" := by
  exact ⟨rfl, rfl, by decide⟩

/-- Claim C9, amended: for every message history and context window `N ≥ 1`,
`build_context` renders exactly the last `N * 2` messages (all of them when
the history is shorter), silently dropping older ones; in particular with 30
prior messages and window 10 exactly the most recent 20 are rendered. -/
theorem build_context_last_window (messages : List ChatMsg) (N : Nat) (hN : 1 ≤ N) :
    build_context messages N = renderHistory (messages.drop (messages.length - N * 2)) := by
  unfold build_context
  by_cases h : messages.length > N * 2
  · rw [if_pos h]
    unfold pyLastSlice
    rw [if_neg (by omega)]
  · rw [if_neg h]
    have hz : messages.length - N * 2 = 0 := Nat.sub_eq_zero_of_le (Nat.le_of_not_lt h)
    rw [hz, List.drop_zero]

theorem build_context_last_window_witness :
    build_context (List.replicate 30 (⟨"user", "m"⟩ : ChatMsg)) 10 =
      renderHistory ((List.replicate 30 (⟨"user", "m"⟩ : ChatMsg)).drop
        ((List.replicate 30 (⟨"user", "m"⟩ : ChatMsg)).length - 10 * 2)) :=
  build_context_last_window (List.replicate 30 (⟨"user", "m"⟩ : ChatMsg)) 10 (by decide)

/-- Claim C10: in streaming mode, when the model event sequence ends with a
terminal result event, the assistant text passed to the memory save is the
terminal result's text, which replaces the accumulated concatenation of the
fragments already streamed — so the saved text need not equal what the
client received, which is exactly the content chunks plus the sentinel. -/
theorem stream_save_uses_terminal_result (ms : List Msg) (r orig : String)
    (hne : noErr ms = true) (hr : r ≠ "") (horig : orig ≠ "") (b : Bool) :
    (stream_response true b (ms ++ [Msg.result r]) orig).2 = [Effect.save orig r] ∧
    (stream_response true b (ms ++ [Msg.result r]) orig).1.sse =
      some ((contentTexts ms).map (fun c => "data: " ++ c ++ "\n\n") ++
        ["data: [DONE]\n\n"]) := by
  have hrun := runStreamAux_append_result ms "" r hne
  constructor
  · unfold stream_response
    rw [hrun]
    simp only [Bool.not_false, Bool.true_and]
    rw [if_pos (by simp [hr])]
    unfold save_interaction
    rw [if_pos (by simp [horig, hr])]
  · unfold stream_response
    rw [hrun]
    simp [stream_events]

theorem stream_save_uses_terminal_result_witness :
    (stream_response true false ([Msg.content "a"] ++ [Msg.result "b"]) "q").2 =
      [Effect.save "q" "b"] ∧
    (stream_response true false ([Msg.content "a"] ++ [Msg.result "b"]) "q").1.sse =
      some ((contentTexts [Msg.content "a"]).map (fun c => "data: " ++ c ++ "\n\n") ++
        ["data: [DONE]\n\n"]) :=
  stream_save_uses_terminal_result [Msg.content "a"] "b" "q" rfl (by decide) (by decide) false

end CustomerSupport
